import Mathlib

/-! # Clutter sync engine: a shallow embedding

Model of the tracked-item lifecycle of clutter.py: the tracked_items
registry table, the sandbox / snapshot / original directory trees, and the
operations track, pull, commit and handle_tracked_deletion, together with
the order of filesystem and registry writes each operation performs. -/

namespace Clutter

/-- A filesystem tree: a regular file with its content, or a directory with
named children. -/
inductive FsTree where
  | file (data : String)
  | dir (children : List (String × FsTree))

mutual

def FsTree.beq : FsTree → FsTree → Bool
  | .file a, .file b => a == b
  | .dir as, .dir bs => FsTree.beqChildren as bs
  | _, _ => false

def FsTree.beqChildren : List (String × FsTree) → List (String × FsTree) → Bool
  | [], [] => true
  | (n, t) :: r, (m, u) :: s => n == m && FsTree.beq t u && FsTree.beqChildren r s
  | _ :: _, [] => false
  | [], _ :: _ => false

end

mutual

theorem FsTree.beq_iff : ∀ a b : FsTree, FsTree.beq a b = true ↔ a = b
  | .file a, .file b => by simp [FsTree.beq]
  | .file _, .dir _ => by simp [FsTree.beq]
  | .dir _, .file _ => by simp [FsTree.beq]
  | .dir as, .dir bs => by simp [FsTree.beq, FsTree.beqChildren_iff as bs]

theorem FsTree.beqChildren_iff :
    ∀ as bs : List (String × FsTree), FsTree.beqChildren as bs = true ↔ as = bs
  | [], [] => by simp [FsTree.beqChildren]
  | [], _ :: _ => by simp [FsTree.beqChildren]
  | _ :: _, [] => by simp [FsTree.beqChildren]
  | (n, t) :: r, (m, u) :: s => by
      simp [FsTree.beqChildren, FsTree.beq_iff t u, FsTree.beqChildren_iff r s,
        Prod.ext_iff, and_assoc]

end

instance : DecidableEq FsTree := fun a b => decidable_of_iff _ (FsTree.beq_iff a b)

/-- Association-list lookup; the first binding of the key wins. -/
def alookup {κ ν : Type} [DecidableEq κ] : List (κ × ν) → κ → Option ν
  | [], _ => none
  | (k', v) :: rest, k => if k' = k then some v else alookup rest k

/-- Association-list update: an existing key keeps its position, a new key
is appended at the end. -/
def aset {κ ν : Type} [DecidableEq κ] : List (κ × ν) → κ → ν → List (κ × ν)
  | [], k, v => [(k, v)]
  | (k', v') :: rest, k, v =>
      if k' = k then (k, v) :: rest else (k', v') :: aset rest k v

/-- Association-list removal of every binding of a key. -/
def aremove {κ ν : Type} [DecidableEq κ] : List (κ × ν) → κ → List (κ × ν)
  | [], _ => []
  | (k', v') :: rest, k =>
      if k' = k then aremove rest k else (k', v') :: aremove rest k

/-- One row of the tracked_items table. -/
structure TrackedRow where
  path : String
  name : String
  status : String
  last_pulled : Option Nat := none
  last_committed : Option Nat := none
  snapshot_path : Option String := none
deriving DecidableEq

/-- The mutable state the engine touches: external filesystem locations
keyed by absolute path, sandbox trees keyed by item name, snapshot trees
keyed by item name and snapshot directory name, the tracked_items table,
and the resume-state note. -/
structure State where
  entries : List (String × FsTree)
  sandboxes : List (String × FsTree)
  snapshots : List ((String × String) × FsTree)
  registry : List TrackedRow
  resume : Option String := none
deriving DecidableEq

/-- A write performed by an operation, in execution order. -/
inductive Event where
  | regWrite        -- an INSERT or UPDATE on tracked_items, then COMMIT
  | refLink         -- display symlink under refs/ (bookkeeping)
  | resumeNote      -- the last_worked resume-state file (bookkeeping)
  | snapshotWrite   -- copy of a tree into a snapshot directory
  | sandboxInit     -- sandbox mkdir plus metadata file
  | clearSandbox    -- deletion of sandbox entries besides the metadata file
  | copyToSandbox   -- copy of the original's contents into the sandbox
  | removeTemp      -- deletion of a pre-existing .clutter_temp sibling
  | copyToTemp      -- copy of sandbox entries into the .clutter_temp sibling
  | renameOrigToBak -- rename of the original onto the .clutter_bak sibling
  | renameTempToOrig -- rename of the .clutter_temp sibling onto the original
  | removeBak       -- deletion of the .clutter_bak sibling
  | copyOverFile    -- single-file copy over the original
  | restoreCopy     -- copy of sandbox contents back to a deleted original
deriving DecidableEq

/-- Does the event mutate tracked data on the filesystem (sandbox,
snapshot, original, temp or bak sibling), as opposed to a registry write
or a display/bookkeeping note? -/
def Event.isData : Event → Bool
  | .regWrite => false
  | .refLink => false
  | .resumeNote => false
  | _ => true

/-- A trace violates the write-ordering discipline when some tracked-data
filesystem write happens after a registry write. -/
def violatesOrder (tr : List Event) : Bool :=
  (tr.dropWhile (fun e => e != Event.regWrite)).any Event.isData

inductive Outcome where
  | ok
  | err (msg : String)
deriving DecidableEq

/-- Result of track / pull / commit: post state, write trace, outcome. -/
structure OpResult where
  state : State
  trace : List Event
  outcome : Outcome
deriving DecidableEq

/-- Result of handle_tracked_deletion: post state, write trace, and the
boolean the handler returns (true = handled, false = unhandled). -/
structure DelResult where
  state : State
  trace : List Event
  handled : Bool
deriving DecidableEq

/-- src lines 185-188 / 856-859 / 928-931: does the directory tree hold an
entry whose name differs from the metadata file name? -/
def dirHasContent : FsTree → Bool
  | .file _ => false
  | .dir cs => cs.any (fun c => c.1 != ".clutter_sandbox")

/-- has_content / has_ghost: the sandbox exists and holds something beyond
the metadata file. -/
def sandboxHasContent (st : State) (name : String) : Bool :=
  match alookup st.sandboxes name with
  | none => false
  | some t => dirHasContent t

/-- items_to_copy (line 955): the sandbox children without the top-level
metadata file; the commit copy loop materialises exactly these entries in
the temp directory. -/
def stripMeta : FsTree → FsTree
  | .file d => .file d
  | .dir cs => .dir (cs.filter (fun c => c.1 != ".clutter_sandbox"))

mutual

/-- shutil.copytree with ignore_patterns('.clutter_sandbox') (line 221):
the ignore pattern applies at every directory level, so entries of that
name are dropped at any depth, not only the top-level metadata file. -/
def stripMetaRec : FsTree → FsTree
  | .file d => .file d
  | .dir cs => .dir (stripMetaRecChildren cs)

def stripMetaRecChildren : List (String × FsTree) → List (String × FsTree)
  | [] => []
  | (n, t) :: rest =>
      if n = ".clutter_sandbox" then stripMetaRecChildren rest
      else (n, stripMetaRec t) :: stripMetaRecChildren rest

end

/-- pull lines 867-873: delete every sandbox entry except the metadata
file. -/
def clearSandboxTree : FsTree → FsTree
  | .file d => .file d
  | .dir cs => .dir (cs.filter (fun c => c.1 == ".clutter_sandbox"))

def dirChildren : FsTree → List (String × FsTree)
  | .file _ => []
  | .dir cs => cs

def insertChild : FsTree → String → FsTree → FsTree
  | .file d, _, _ => .file d
  | .dir cs, n, c => .dir (aset cs n c)

/-- Copy named items one by one into a directory tree (pull lines 888-895:
per-child copytree / copy2 into the sandbox). -/
def copyInto (t : FsTree) (items : List (String × FsTree)) : FsTree :=
  items.foldl (fun acc it => insertChild acc it.1 it.2) t

/-- Helper for basename: walk the characters, restarting the accumulator
after every path separator. -/
def basenameChars : List Char → List Char → List Char
  | [], acc => acc
  | c :: rest, acc =>
      if c = '/' then basenameChars rest [] else basenameChars rest (acc ++ [c])

/-- os.path.basename for the absolute path strings the engine stores. -/
def basename (p : String) : String := ⟨basenameChars p.data []⟩

/-- Content of the .clutter_sandbox metadata file written by track
(name, original path, creation time, tool version). -/
def metaFile (name path : String) (now : Nat) : FsTree :=
  .file ("name=" ++ name ++ ";original_path=" ++ path ++ ";created="
    ++ toString now ++ ";clutter_version=0.4.0")

/-- The .clutter_temp sibling of an original path (line 958). -/
def tempOf (p : String) : String := p ++ ".clutter_temp"

/-- The .clutter_bak sibling of an original path (line 968). -/
def bakOf (p : String) : String := p ++ ".clutter_bak"

/-- SELECT ... WHERE name = ? OR path = ? (first matching row). -/
def findByNameOrPath (reg : List TrackedRow) (x : String) : Option TrackedRow :=
  reg.find? (fun r => r.name == x || r.path == x)

/-- UPDATE tracked_items SET ... WHERE name = ?. -/
def updateByName (reg : List TrackedRow) (n : String)
    (f : TrackedRow → TrackedRow) : List TrackedRow :=
  reg.map (fun r => if r.name == n then f r else r)

/-- UPDATE tracked_items SET ... WHERE path = ?. -/
def updateByPath (reg : List TrackedRow) (p : String)
    (f : TrackedRow → TrackedRow) : List TrackedRow :=
  reg.map (fun r => if r.path == p then f r else r)

/-- UPDATE tracked_items SET status = s WHERE path = ?. -/
def markStatusByPath (st : State) (path s : String) : State :=
  { st with registry := updateByPath st.registry path (fun r => { r with status := s }) }

/-- UPDATE tracked_items SET status = s WHERE name = ?. -/
def markStatusByName (st : State) (name s : String) : State :=
  { st with registry := updateByName st.registry name (fun r => { r with status := s }) }

/-- track(path, name), clutter.py lines 799-838.  The registry row is
inserted and committed first; the refs symlink and the sandbox with its
metadata file are created afterwards.  A pre-existing sandbox directory is
kept (mkdir with exist_ok) and only the metadata file is rewritten.  A
path already tracked under another name makes the INSERT hit the path
PRIMARY KEY, so the transaction rolls back with nothing written. -/
def track (st : State) (path name : String) (now : Nat) : OpResult :=
  if (alookup st.entries path).isNone then
    ⟨st, [], .err ("path does not exist")⟩
  else if st.registry.any (fun r => r.name == name) then
    ⟨st, [], .err ("name already in use")⟩
  else if st.registry.any (fun r => r.path == path) then
    ⟨st, [], .err ("path already tracked")⟩
  else
    let reg' := st.registry ++ [{ path := path, name := name, status := "tracked" }]
    match alookup st.sandboxes name with
    | some (.file _) =>
        -- mkdir on an existing plain file raises after the row was committed
        ⟨{ st with registry := reg' }, [.regWrite, .refLink], .err ("sandbox path is not a directory")⟩
    | some (.dir cs) =>
        let sb := FsTree.dir (aset cs ".clutter_sandbox" (metaFile name path now))
        ⟨{ st with registry := reg', sandboxes := aset st.sandboxes name sb },
         [.regWrite, .refLink, .sandboxInit], .ok⟩
    | none =>
        let sb := FsTree.dir [(".clutter_sandbox", metaFile name path now)]
        ⟨{ st with registry := reg', sandboxes := aset st.sandboxes name sb },
         [.regWrite, .refLink, .sandboxInit], .ok⟩

/-- Continuation of pull after the pre-pull snapshot step (lines 875-911):
ghost check, copy of the original into the sandbox, registry update,
resume note. -/
def pullRest (st : State) (row : TrackedRow) (snapId : Option String)
    (tr : List Event) (now : Nat) : OpResult :=
  match alookup st.entries row.path with
  | none =>
      ⟨markStatusByName st row.name "ghost", tr ++ [.regWrite], .err ("original missing")⟩
  | some orig =>
      let sb0 := (alookup st.sandboxes row.name).getD (.dir [])
      let sb1 :=
        match orig with
        | .dir cs => copyInto sb0 cs
        | .file d => insertChild sb0 (basename row.path) (.file d)
      let reg' := updateByName st.registry row.name (fun r =>
        { r with last_pulled := some now, status := "pulled",
                 snapshot_path := snapId.map (fun s => row.name ++ "/" ++ s) })
      ⟨{ st with sandboxes := aset st.sandboxes row.name sb1, registry := reg',
                 resume := some row.name },
       tr ++ [.copyToSandbox, .regWrite, .resumeNote], .ok⟩

/-- The per-row body of pull, after the registry lookup resolved. -/
def pullRow (st : State) (row : TrackedRow) (now : Nat) : OpResult :=
  if sandboxHasContent st row.name then
    match alookup st.sandboxes row.name with
    | some sb =>
        if (alookup st.snapshots (row.name, "pre_pull_" ++ toString now)).isSome then
          -- shutil.copytree refuses an existing destination: the
          -- exception aborts pull before anything is written
          ⟨st, [], .err ("snapshot destination exists")⟩
        else
          let snaps2 := aset st.snapshots (row.name, "pre_pull_" ++ toString now) sb
          let sand2 := aset st.sandboxes row.name (clearSandboxTree sb)
          pullRest { st with snapshots := snaps2, sandboxes := sand2 }
            row (some ("pre_pull_" ++ toString now)) [.snapshotWrite, .clearSandbox] now
    | none => pullRest st row none [] now
  else
    pullRest st row none [] now

/-- pull(name_or_path), clutter.py lines 840-911. -/
def pull (st : State) (x : String) (now : Nat) : OpResult :=
  match findByNameOrPath st.registry x with
  | none => ⟨st, [], .err ("not tracked")⟩
  | some row => pullRow st row now

/-- The directory-replacement branch test of commit line 957: the original
is a directory, or it does not exist, or some sandbox item to copy is
itself a directory. -/
def dirBranchCond (en : List (String × FsTree)) (p : String) (sb : FsTree) : Bool :=
  (match alookup en p with
   | some (.dir _) => true
   | _ => false)
  || !(alookup en p).isSome
  || (dirChildren sb).any (fun c =>
       c.1 != ".clutter_sandbox"
       && (match c.2 with | .dir _ => true | .file _ => false))

/-- The pre-commit snapshot tree for a single-file original (lines
946-948): mkdir with exist_ok reuses an existing snapshot directory of the
same name, and copy2 overwrites the file inside it. -/
def fileSnapTree (snaps : List ((String × String) × FsTree)) (key : String × String)
    (p d : String) : FsTree :=
  .dir (aset
    (match alookup snaps key with
     | some (.dir pcs) => pcs
     | _ => []) (basename p) (.file d))

/-- The registry update closing every commit (lines 979-985), appended to
the write trace after all filesystem work. -/
def commitFinish (st2 : State) (row : TrackedRow) (snapId : Option String)
    (tr2 : List Event) (now : Nat) : OpResult :=
  let reg2 := updateByName st2.registry row.name (fun r =>
    { r with last_committed := some now, status := "committed",
             snapshot_path := snapId.map (fun s => row.name ++ "/" ++ s) })
  ⟨{ st2 with registry := reg2 }, tr2 ++ [.regWrite], .ok⟩

/-- The external filesystem just after the rename of the temp sibling onto
the original (lines 958-971): remove a stale temp, copy the sandbox items
into the temp path, rename an existing original to the bak sibling, rename
the temp path onto the original. -/
def dirSwapE4 (en : List (String × FsTree)) (p : String) (tempTree : FsTree) :
    List (String × FsTree) :=
  let e2 := aset (aremove en (tempOf p)) (tempOf p) tempTree
  let step3 :=
    match alookup en p with
    | some orig => aset (aremove e2 p) (bakOf p) orig
    | none => e2
  aset (aremove step3 (tempOf p)) p tempTree

/-- The external filesystem at the end of the directory branch: the bak
sibling is removed when present (lines 972-973). -/
def dirSwapEntries (en : List (String × FsTree)) (p : String) (tempTree : FsTree) :
    List (String × FsTree) :=
  if (alookup (dirSwapE4 en p tempTree) (bakOf p)).isSome
  then aremove (dirSwapE4 en p tempTree) (bakOf p)
  else dirSwapE4 en p tempTree

/-- The filesystem events of the directory branch, in execution order. -/
def dirSwapTrace (en : List (String × FsTree)) (p : String) (tempTree : FsTree) :
    List Event :=
  (if (alookup en (tempOf p)).isSome then [Event.removeTemp] else [])
    ++ [Event.copyToTemp]
    ++ (if (alookup en p).isSome then [Event.renameOrigToBak] else [])
    ++ [Event.renameTempToOrig]
    ++ (if (alookup (dirSwapE4 en p tempTree) (bakOf p)).isSome then [Event.removeBak] else [])

/-- commit lines 953-985: the temp / bak replacement dance for the
directory branch, or the direct file overwrite otherwise, followed by the
registry update. -/
def commitReplace (st : State) (row : TrackedRow) (sb : FsTree)
    (snapId : Option String) (tr : List Event) (now : Nat) : OpResult :=
  if dirBranchCond st.entries row.path sb then
    commitFinish { st with entries := dirSwapEntries st.entries row.path (stripMeta sb) }
      row snapId (tr ++ dirSwapTrace st.entries row.path (stripMeta sb)) now
  else
    -- single-file branch (lines 974-977): copy the matching sandbox file
    -- directly over the original
    match alookup (dirChildren sb) (basename row.path) with
    | some (.file d) =>
        commitFinish { st with entries := aset st.entries row.path (.file d) }
          row snapId (tr ++ [.copyOverFile]) now
    | some (.dir _) => commitFinish st row snapId tr now  -- unreachable: a directory item forces the directory branch
    | none => commitFinish st row snapId tr now

/-- The per-row body of commit, after the registry lookup resolved. -/
def commitRow (st : State) (row : TrackedRow) (now : Nat) : OpResult :=
  if sandboxHasContent st row.name then
    let sb := (alookup st.sandboxes row.name).getD (.dir [])
    match alookup st.entries row.path with
    | some (.dir cs) =>
        if (alookup st.snapshots (row.name, "pre_commit_" ++ toString now)).isSome then
          -- copytree refuses the existing snapshot destination and the
          -- exception aborts commit before anything is written
          ⟨st, [], .err ("snapshot destination exists")⟩
        else
          let snaps2 := aset st.snapshots (row.name, "pre_commit_" ++ toString now) (.dir cs)
          commitReplace { st with snapshots := snaps2 } row sb
            (some ("pre_commit_" ++ toString now)) [.snapshotWrite] now
    | some (.file d) =>
        -- single-file snapshot (lines 946-948): mkdir with exist_ok
        -- plus copy2, so an existing snapshot directory of the same
        -- name is reused and its file silently overwritten
        let snapTree := fileSnapTree st.snapshots (row.name, "pre_commit_" ++ toString now)
          row.path d
        let snaps2 := aset st.snapshots (row.name, "pre_commit_" ++ toString now) snapTree
        commitReplace { st with snapshots := snaps2 } row sb
          (some ("pre_commit_" ++ toString now)) [.snapshotWrite] now
    | none =>
        commitReplace st row sb none [] now
  else
    ⟨st, [], .err ("nothing to commit")⟩

/-- commit(name_or_path), clutter.py lines 913-988. -/
def commit (st : State) (x : String) (now : Nat) : OpResult :=
  match findByNameOrPath st.registry x with
  | none => ⟨st, [], .err ("not tracked")⟩
  | some row => commitRow st row now

/-- The three resolutions of the deletion prompt (lines 194-197). -/
inductive Choice where
  | restore
  | keepGhost
  | deleteForReal
deriving DecidableEq

/-- The per-row body of handle_tracked_deletion, after the registry lookup
resolved. -/
def handleRow (st : State) (path : String) (row : TrackedRow) (choice : Choice) : DelResult :=
  if sandboxHasContent st row.name then
    match choice with
    | .deleteForReal =>
        ⟨markStatusByPath st path "ghost", [.regWrite], true⟩
    | .keepGhost =>
        ⟨markStatusByPath st path "ghost", [.regWrite], true⟩
    | .restore =>
        if (alookup st.entries path).isSome then
          -- copytree to an existing destination raises; the handler
          -- catches the error and reports failure
          ⟨st, [], false⟩
        else
          match alookup st.sandboxes row.name with
          | some (.dir cs) =>
              let st2 := markStatusByPath st path "tracked"
              ⟨{ st2 with entries := aset st.entries path (stripMetaRec (.dir cs)) },
               [.restoreCopy, .regWrite], true⟩
          | some (.file d) =>
              let st2 := markStatusByPath st path "tracked"
              ⟨{ st2 with entries := aset st.entries path (.file d) },
               [.restoreCopy, .regWrite], true⟩
          | none => ⟨st, [], false⟩  -- unreachable: content implies a sandbox
  else
    ⟨markStatusByPath st path "ghost", [.regWrite], false⟩

/-- handle_tracked_deletion(path), clutter.py lines 165-246, with the
input() prompt replaced by an explicit choice parameter. -/
def handle_tracked_deletion (st : State) (path : String) (choice : Choice) : DelResult :=
  match st.registry.find? (fun r => r.path == path) with
  | none => ⟨st, [], false⟩
  | some row => handleRow st path row choice

/-! ## Concrete states used by witnesses and counterexamples -/

/-- A tracked directory item with a dirty sandbox. -/
def stDirItem : State :=
  { entries := [("/o", .dir [("old", .file ("1"))])],
    sandboxes := [("n", .dir [(".clutter_sandbox", .file ("m")), ("f", .file ("2"))])],
    snapshots := [],
    registry := [{ path := "/o", name := "n", status := "pulled" }] }

/-- A tracked directory item with a dirty sandbox, an orphaned temp
sibling of its own original left by an aborted commit, and a second
orphaned temp sibling belonging to an unrelated path. -/
def stOrphan : State :=
  { entries := [("/o", .dir [("old", .file ("1"))]),
                ("/o.clutter_temp", .dir [("evidence", .file ("e"))]),
                ("/q.clutter_temp", .dir [("other", .file ("f"))])],
    sandboxes := [("n", .dir [(".clutter_sandbox", .file ("m")), ("f", .file ("2"))])],
    snapshots := [],
    registry := [{ path := "/o", name := "n", status := "pulled" }] }

/-- An existing path, nothing tracked, no sandboxes. -/
def stFresh : State :=
  { entries := [("/p", .dir [])], sandboxes := [], snapshots := [], registry := [] }

/-- An existing path, nothing tracked, but a stale sandbox directory for
the name about to be used. -/
def stStale : State :=
  { entries := [("/p", .dir [])],
    sandboxes := [("n", .dir [("junk", .file ("x"))])],
    snapshots := [], registry := [] }

/-- An existing path and a registry whose only row already uses the name. -/
def stNameTaken : State :=
  { entries := [("/p", .dir []), ("/z", .dir [])],
    sandboxes := [], snapshots := [],
    registry := [{ path := "/z", name := "n", status := "tracked" }] }

/-- A tracked single-file item with a dirty sandbox holding the new file
content. -/
def stFileItem : State :=
  { entries := [("/f", .file ("O"))],
    sandboxes := [("nf", .dir [(".clutter_sandbox", .file ("m")), ("f", .file ("S"))])],
    snapshots := [],
    registry := [{ path := "/f", name := "nf", status := "pulled" }] }

/-- A deleted original whose sandbox holds a subdirectory containing a
user file that happens to be called .clutter_sandbox. -/
def stNested : State :=
  { entries := [],
    sandboxes := [("n8", .dir [(".clutter_sandbox", .file ("m")),
                               ("sub", .dir [(".clutter_sandbox", .file ("u"))])])],
    snapshots := [],
    registry := [{ path := "/o8", name := "n8", status := "ghost" }] }

/-- A tracked item whose sandbox holds only the metadata file. -/
def stEmptySandbox : State :=
  { entries := [("/w2", .dir [("a", .file ("1"))])],
    sandboxes := [("w2", .dir [(".clutter_sandbox", .file ("m"))])],
    snapshots := [],
    registry := [{ path := "/w2", name := "w2", status := "tracked" }] }

/-- A tracked item with a dirty sandbox whose original is gone. -/
def stNoOriginal : State :=
  { entries := [],
    sandboxes := [("w3", .dir [(".clutter_sandbox", .file ("m")), ("d", .file ("x"))])],
    snapshots := [],
    registry := [{ path := "/w3", name := "w3", status := "pulled" }] }

/-- The empty state: nothing tracked at all. -/
def stUntracked : State :=
  { entries := [], sandboxes := [], snapshots := [], registry := [] }

/-- A tracked item that was never pulled: sandbox holds only metadata. -/
def stNeverPulled : State :=
  { entries := [],
    sandboxes := [("w7", .dir [(".clutter_sandbox", .file ("m"))])],
    snapshots := [],
    registry := [{ path := "/w7", name := "w7", status := "tracked" }] }

/-! ## Association-list lemmas -/

theorem alookup_aset_self {κ ν : Type} [DecidableEq κ] (m : List (κ × ν)) (k : κ) (v : ν) :
    alookup (aset m k v) k = some v := by
  induction m with
  | nil => simp [aset, alookup]
  | cons hd tl ih =>
      obtain ⟨k', v'⟩ := hd
      by_cases h : k' = k
      · simp [aset, alookup, h]
      · simp [aset, alookup, h, ih]

theorem alookup_aset_ne {κ ν : Type} [DecidableEq κ] (m : List (κ × ν)) (k k₂ : κ) (v : ν)
    (h : k₂ ≠ k) : alookup (aset m k v) k₂ = alookup m k₂ := by
  have h' : ¬ k = k₂ := fun e => h e.symm
  induction m with
  | nil => simp [aset, alookup, h']
  | cons hd tl ih =>
      obtain ⟨k', v'⟩ := hd
      by_cases hk : k' = k
      · subst hk
        simp [aset, alookup, h, h']
      · by_cases hk2 : k' = k₂
        · simp [aset, alookup, hk, hk2, h, h']
        · simp [aset, alookup, hk, hk2, ih]

theorem alookup_aremove_self {κ ν : Type} [DecidableEq κ] (m : List (κ × ν)) (k : κ) :
    alookup (aremove m k) k = none := by
  induction m with
  | nil => simp [aremove, alookup]
  | cons hd tl ih =>
      obtain ⟨k', v'⟩ := hd
      by_cases h : k' = k
      · simp [aremove, h, ih]
      · simp [aremove, alookup, h, ih]

theorem alookup_aremove_ne {κ ν : Type} [DecidableEq κ] (m : List (κ × ν)) (k k₂ : κ)
    (h : k₂ ≠ k) : alookup (aremove m k) k₂ = alookup m k₂ := by
  have h' : ¬ k = k₂ := fun e => h e.symm
  induction m with
  | nil => simp [aremove]
  | cons hd tl ih =>
      obtain ⟨k', v'⟩ := hd
      by_cases hk : k' = k
      · subst hk
        simp [aremove, alookup, h, h', ih]
      · by_cases hk2 : k' = k₂
        · simp [aremove, alookup, hk, hk2, h, h']
        · simp [aremove, alookup, hk, hk2, ih]

/-! ## Path-string lemmas: the temp and bak siblings are distinct from the
original and from each other -/

theorem string_data_append (a b : String) : (a ++ b).data = a.data ++ b.data := rfl

theorem tempOf_ne_self (p : String) : tempOf p ≠ p := by
  intro h
  have hd := congrArg (fun s => s.data.length) h
  have hlit : (".clutter_temp").data.length = 13 := rfl
  simp only [tempOf, string_data_append, List.length_append, hlit] at hd
  omega

theorem bakOf_ne_self (p : String) : bakOf p ≠ p := by
  intro h
  have hd := congrArg (fun s => s.data.length) h
  have hlit : (".clutter_bak").data.length = 12 := rfl
  simp only [bakOf, string_data_append, List.length_append, hlit] at hd
  omega

theorem bakOf_ne_tempOf (q p : String) : bakOf q ≠ tempOf p := by
  intro h
  have hd := congrArg (fun s => s.data.getLast?) h
  simp only [bakOf, tempOf, string_data_append] at hd
  rw [List.getLast?_append_of_ne_nil _ (by decide), List.getLast?_append_of_ne_nil _ (by decide)]
    at hd
  exact absurd hd (by decide)

theorem tempOf_inj {a b : String} (h : tempOf a = tempOf b) : a = b := by
  have hd := congrArg String.data h
  simp only [tempOf, string_data_append] at hd
  have h2 := List.append_cancel_right hd
  cases a
  cases b
  exact congrArg String.mk h2

/-! ## Small facts about sandbox trees -/

theorem dirHasContent_clear (t : FsTree) : dirHasContent (clearSandboxTree t) = false := by
  cases t with
  | file d => rfl
  | dir cs =>
      simp only [clearSandboxTree, dirHasContent]
      induction cs with
      | nil => rfl
      | cons c tl ih =>
          by_cases h : c.1 = ".clutter_sandbox" <;>
            simp_all [List.filter_cons, bne_iff_ne]

/-! ## Frame lemmas: which parts of the state each operation leaves alone -/

theorem track_entries (st : State) (p n : String) (now : Nat) :
    (track st p n now).state.entries = st.entries := by
  unfold track
  split
  · rfl
  split
  · rfl
  split
  · rfl
  split <;> rfl

theorem track_snapshots (st : State) (p n : String) (now : Nat) :
    (track st p n now).state.snapshots = st.snapshots := by
  unfold track
  split
  · rfl
  split
  · rfl
  split
  · rfl
  split <;> rfl

theorem pullRest_entries (st : State) (row : TrackedRow) (snapId : Option String)
    (tr : List Event) (now : Nat) :
    (pullRest st row snapId tr now).state.entries = st.entries := by
  unfold pullRest
  split <;> rfl

theorem pullRest_snapshots (st : State) (row : TrackedRow) (snapId : Option String)
    (tr : List Event) (now : Nat) :
    (pullRest st row snapId tr now).state.snapshots = st.snapshots := by
  unfold pullRest
  split <;> rfl

theorem pullRow_entries (st : State) (row : TrackedRow) (now : Nat) :
    (pullRow st row now).state.entries = st.entries := by
  unfold pullRow
  split
  · split
    · split
      · rfl
      · rw [pullRest_entries]
    · rw [pullRest_entries]
  · rw [pullRest_entries]

theorem pull_entries (st : State) (x : String) (now : Nat) :
    (pull st x now).state.entries = st.entries := by
  unfold pull
  split
  · rfl
  · exact pullRow_entries _ _ _

theorem commitReplace_snapshots (st : State) (row : TrackedRow) (sb : FsTree)
    (snapId : Option String) (tr : List Event) (now : Nat) :
    (commitReplace st row sb snapId tr now).state.snapshots = st.snapshots := by
  unfold commitReplace
  split
  · rfl
  · split <;> rfl

theorem handleRow_snapshots (st : State) (path : String) (row : TrackedRow) (choice : Choice) :
    (handleRow st path row choice).state.snapshots = st.snapshots := by
  unfold handleRow
  split
  · split
    · rfl
    · rfl
    · split
      · rfl
      · split <;> rfl
  · rfl

theorem handle_snapshots (st : State) (path : String) (choice : Choice) :
    (handle_tracked_deletion st path choice).state.snapshots = st.snapshots := by
  unfold handle_tracked_deletion
  split
  · rfl
  · exact handleRow_snapshots _ _ _ _

/-! ## The directory-replacement sequence: where each location ends up -/

theorem dirSwapE4_orig (en : List (String × FsTree)) (p : String) (tt : FsTree) :
    alookup (dirSwapE4 en p tt) p = some tt := by
  unfold dirSwapE4
  exact alookup_aset_self _ _ _

theorem dirSwapE4_temp (en : List (String × FsTree)) (p : String) (tt : FsTree) :
    alookup (dirSwapE4 en p tt) (tempOf p) = none := by
  unfold dirSwapE4
  rw [alookup_aset_ne _ _ _ _ (tempOf_ne_self p), alookup_aremove_self]

theorem dirSwapE4_bak_some (en : List (String × FsTree)) (p : String) (tt : FsTree)
    (orig : FsTree) (ho : alookup en p = some orig) :
    alookup (dirSwapE4 en p tt) (bakOf p) = some orig := by
  unfold dirSwapE4
  rw [ho]
  rw [alookup_aset_ne _ _ _ _ (bakOf_ne_self p),
      alookup_aremove_ne _ _ _ (bakOf_ne_tempOf p p),
      alookup_aset_self]

theorem dirSwapE4_bak_none (en : List (String × FsTree)) (p : String) (tt : FsTree)
    (ho : alookup en p = none) :
    alookup (dirSwapE4 en p tt) (bakOf p) = alookup en (bakOf p) := by
  unfold dirSwapE4
  rw [ho]
  rw [alookup_aset_ne _ _ _ _ (bakOf_ne_self p),
      alookup_aremove_ne _ _ _ (bakOf_ne_tempOf p p),
      alookup_aset_ne _ _ _ _ (bakOf_ne_tempOf p p),
      alookup_aremove_ne _ _ _ (bakOf_ne_tempOf p p)]

theorem alookup_dirSwapE4_frame (en : List (String × FsTree)) (p : String) (tt : FsTree)
    (k : String) (h1 : k ≠ p) (h2 : k ≠ tempOf p) (h3 : k ≠ bakOf p) :
    alookup (dirSwapE4 en p tt) k = alookup en k := by
  unfold dirSwapE4
  cases ho : alookup en p with
  | none =>
      rw [alookup_aset_ne _ _ _ _ h1, alookup_aremove_ne _ _ _ h2,
          alookup_aset_ne _ _ _ _ h2, alookup_aremove_ne _ _ _ h2]
  | some orig =>
      rw [alookup_aset_ne _ _ _ _ h1, alookup_aremove_ne _ _ _ h2,
          alookup_aset_ne _ _ _ _ h3, alookup_aremove_ne _ _ _ h1,
          alookup_aset_ne _ _ _ _ h2, alookup_aremove_ne _ _ _ h2]

theorem dirSwapEntries_orig (en : List (String × FsTree)) (p : String) (tt : FsTree) :
    alookup (dirSwapEntries en p tt) p = some tt := by
  unfold dirSwapEntries
  split
  · rw [alookup_aremove_ne _ _ _ (fun e => bakOf_ne_self p e.symm), dirSwapE4_orig]
  · rw [dirSwapE4_orig]

theorem dirSwapEntries_temp (en : List (String × FsTree)) (p : String) (tt : FsTree) :
    alookup (dirSwapEntries en p tt) (tempOf p) = none := by
  unfold dirSwapEntries
  split
  · rw [alookup_aremove_ne _ _ _ (fun e => bakOf_ne_tempOf p p e.symm), dirSwapE4_temp]
  · rw [dirSwapE4_temp]

theorem dirSwapEntries_bak (en : List (String × FsTree)) (p : String) (tt : FsTree) :
    alookup (dirSwapEntries en p tt) (bakOf p) = none := by
  unfold dirSwapEntries
  split
  · exact alookup_aremove_self _ _
  · rename_i h
    cases hq : alookup (dirSwapE4 en p tt) (bakOf p) with
    | none => rfl
    | some v => rw [hq] at h; simp at h

theorem dirSwapEntries_frame (en : List (String × FsTree)) (p : String) (tt : FsTree)
    (k : String) (h1 : k ≠ p) (h2 : k ≠ tempOf p) (h3 : k ≠ bakOf p) :
    alookup (dirSwapEntries en p tt) k = alookup en k := by
  unfold dirSwapEntries
  split
  · rw [alookup_aremove_ne _ _ _ h3, alookup_dirSwapE4_frame en p tt k h1 h2 h3]
  · rw [alookup_dirSwapE4_frame en p tt k h1 h2 h3]

theorem dirSwapTrace_clean (en : List (String × FsTree)) (p : String) (tt : FsTree)
    (htemp : alookup en (tempOf p) = none) (hbak : alookup en (bakOf p) = none) :
    dirSwapTrace en p tt
      = (if (alookup en p).isSome
         then [Event.copyToTemp, Event.renameOrigToBak, Event.renameTempToOrig, Event.removeBak]
         else [Event.copyToTemp, Event.renameTempToOrig]) := by
  unfold dirSwapTrace
  rw [htemp]
  cases ho : alookup en p with
  | none => rw [dirSwapE4_bak_none en p tt ho, hbak]; rfl
  | some orig => rw [dirSwapE4_bak_some en p tt orig ho]; rfl

/-! ## More frame lemmas -/

theorem commitReplace_entries_frame (st : State) (row : TrackedRow) (sb : FsTree)
    (snapId : Option String) (tr : List Event) (now : Nat) (k : String)
    (h1 : k ≠ row.path) (h2 : k ≠ tempOf row.path) (h3 : k ≠ bakOf row.path) :
    alookup (commitReplace st row sb snapId tr now).state.entries k
      = alookup st.entries k := by
  unfold commitReplace
  split
  · exact dirSwapEntries_frame st.entries row.path (stripMeta sb) k h1 h2 h3
  · split
    · exact alookup_aset_ne _ _ _ _ h1
    · rfl
    · rfl

theorem commitRow_entries_frame (st : State) (row : TrackedRow) (now : Nat) (k : String)
    (h1 : k ≠ row.path) (h2 : k ≠ tempOf row.path) (h3 : k ≠ bakOf row.path) :
    alookup (commitRow st row now).state.entries k = alookup st.entries k := by
  unfold commitRow
  split
  · split
    · split
      · rfl
      · exact commitReplace_entries_frame _ row _ _ _ now k h1 h2 h3
    · exact commitReplace_entries_frame _ row _ _ _ now k h1 h2 h3
    · exact commitReplace_entries_frame _ row _ _ _ now k h1 h2 h3
  · rfl

theorem commit_entries_frame (st : State) (x : String) (now : Nat) (k : String)
    (hk : ∀ row : TrackedRow, findByNameOrPath st.registry x = some row →
      k ≠ row.path ∧ k ≠ tempOf row.path ∧ k ≠ bakOf row.path) :
    alookup (commit st x now).state.entries k = alookup st.entries k := by
  unfold commit
  split
  · rfl
  · rename_i row hrow
    obtain ⟨h1, h2, h3⟩ := hk row hrow
    exact commitRow_entries_frame st row now k h1 h2 h3

theorem pullRow_snapshots_preserve (st : State) (row : TrackedRow) (now : Nat)
    (k : String × String) (t : FsTree) (hk : alookup st.snapshots k = some t) :
    alookup (pullRow st row now).state.snapshots k = some t := by
  unfold pullRow
  split
  · split
    · split
      · exact hk
      · rename_i sb hsb hcol
        rw [pullRest_snapshots]
        by_cases hkk : k = (row.name, "pre_pull_" ++ toString now)
        · subst hkk
          rw [hk] at hcol
          simp at hcol
        · show alookup (aset st.snapshots _ _) k = some t
          rw [alookup_aset_ne _ _ _ _ hkk]
          exact hk
    · rw [pullRest_snapshots]; exact hk
  · rw [pullRest_snapshots]; exact hk

theorem pull_snapshots_preserve (st : State) (x : String) (now : Nat)
    (k : String × String) (t : FsTree) (hk : alookup st.snapshots k = some t) :
    alookup (pull st x now).state.snapshots k = some t := by
  unfold pull
  split
  · exact hk
  · exact pullRow_snapshots_preserve _ _ _ _ _ hk

theorem commitRow_snapshots_preserve (st : State) (row : TrackedRow) (now : Nat)
    (k : String × String) (t : FsTree)
    (hkne : k ≠ (row.name, "pre_commit_" ++ toString now))
    (hk : alookup st.snapshots k = some t) :
    alookup (commitRow st row now).state.snapshots k = some t := by
  unfold commitRow
  split
  · split
    · split
      · exact hk
      · rw [commitReplace_snapshots]
        show alookup (aset st.snapshots _ _) k = some t
        rw [alookup_aset_ne _ _ _ _ hkne]
        exact hk
    · rw [commitReplace_snapshots]
      show alookup (aset st.snapshots _ _) k = some t
      rw [alookup_aset_ne _ _ _ _ hkne]
      exact hk
    · rw [commitReplace_snapshots]
      exact hk
  · exact hk

theorem commit_snapshots_preserve (st : State) (x : String) (now : Nat)
    (k : String × String) (t : FsTree) (row : TrackedRow)
    (hrow : findByNameOrPath st.registry x = some row)
    (hkne : k ≠ (row.name, "pre_commit_" ++ toString now))
    (hk : alookup st.snapshots k = some t) :
    alookup (commit st x now).state.snapshots k = some t := by
  have he : commit st x now = commitRow st row now := by
    unfold commit
    rw [hrow]
  rw [he]
  exact commitRow_snapshots_preserve st row now k t hkne hk

/-! ## find? over a row update that keeps name and path -/

theorem findByNameOrPath_updateByName (reg : List TrackedRow) (n x : String)
    (f : TrackedRow → TrackedRow)
    (hf : ∀ r : TrackedRow, (f r).name = r.name ∧ (f r).path = r.path) :
    findByNameOrPath (updateByName reg n f) x
      = (findByNameOrPath reg x).map (fun r => if r.name == n then f r else r) := by
  unfold findByNameOrPath updateByName
  induction reg with
  | nil => rfl
  | cons r tl ih =>
      have hname : (if r.name == n then f r else r).name = r.name := by
        split
        · exact (hf r).1
        · rfl
      have hpath : (if r.name == n then f r else r).path = r.path := by
        split
        · exact (hf r).2
        · rfl
      cases hp : (r.name == x || r.path == x) with
      | true =>
          have hp2 : ((if r.name == n then f r else r).name == x
              || (if r.name == n then f r else r).path == x) = true := by
            rw [hname, hpath]; exact hp
          simp only [List.map_cons, List.find?_cons, hp, hp2]
          rfl
      | false =>
          have hp2 : ((if r.name == n then f r else r).name == x
              || (if r.name == n then f r else r).path == x) = false := by
            rw [hname, hpath]; exact hp
          simp only [List.map_cons, List.find?_cons, hp, hp2]
          exact ih

/-! ## Write-ordering helpers -/

theorem violatesOrder_append_of_all (l m : List Event)
    (hl : ∀ e ∈ l, e ≠ Event.regWrite) :
    violatesOrder (l ++ m) = violatesOrder m := by
  induction l with
  | nil => rfl
  | cons a t ih =>
      have ha : a ≠ Event.regWrite := hl a (by simp)
      have ht : ∀ e ∈ t, e ≠ Event.regWrite := fun e he => hl e (by simp [he])
      simp only [List.cons_append, violatesOrder, List.dropWhile_cons]
      rw [if_pos (by simp [bne_iff_ne, ha])]
      exact ih ht

theorem mem_ite_single {α : Type} {e a : α} {c : Prop} [Decidable c]
    (h : e ∈ if c then [a] else []) : e = a := by
  split at h
  · simpa using h
  · simp at h

theorem dirSwapTrace_no_reg (en : List (String × FsTree)) (p : String) (tt : FsTree) :
    ∀ e ∈ dirSwapTrace en p tt, e ≠ Event.regWrite := by
  intro e he
  unfold dirSwapTrace at he
  simp only [List.mem_append] at he
  rcases he with ((((h | h) | h) | h) | h)
  · rw [mem_ite_single h]; decide
  · rw [List.mem_singleton.mp h]; decide
  · rw [mem_ite_single h]; decide
  · rw [List.mem_singleton.mp h]; decide
  · rw [mem_ite_single h]; decide

theorem commitReplace_no_violation (st : State) (row : TrackedRow) (sb : FsTree)
    (snapId : Option String) (tr : List Event) (now : Nat)
    (htr : ∀ e ∈ tr, e ≠ Event.regWrite) :
    violatesOrder (commitReplace st row sb snapId tr now).trace = false := by
  unfold commitReplace
  split
  · show violatesOrder ((tr ++ dirSwapTrace st.entries row.path (stripMeta sb))
      ++ [Event.regWrite]) = false
    rw [violatesOrder_append_of_all]
    · decide
    · intro e he
      rcases List.mem_append.mp he with h | h
      · exact htr e h
      · exact dirSwapTrace_no_reg _ _ _ e h
  · split
    · show violatesOrder ((tr ++ [Event.copyOverFile]) ++ [Event.regWrite]) = false
      rw [violatesOrder_append_of_all]
      · decide
      · intro e he
        rcases List.mem_append.mp he with h | h
        · exact htr e h
        · rw [List.mem_singleton.mp h]; decide
    · show violatesOrder (tr ++ [Event.regWrite]) = false
      rw [violatesOrder_append_of_all _ _ htr]
      decide
    · show violatesOrder (tr ++ [Event.regWrite]) = false
      rw [violatesOrder_append_of_all _ _ htr]
      decide

theorem pullRest_no_violation (st : State) (row : TrackedRow) (snapId : Option String)
    (tr : List Event) (now : Nat) (htr : ∀ e ∈ tr, e ≠ Event.regWrite) :
    violatesOrder (pullRest st row snapId tr now).trace = false := by
  unfold pullRest
  split
  · show violatesOrder (tr ++ [Event.regWrite]) = false
    rw [violatesOrder_append_of_all _ _ htr]
    decide
  · show violatesOrder (tr ++ [Event.copyToSandbox, Event.regWrite, Event.resumeNote]) = false
    rw [violatesOrder_append_of_all _ _ htr]
    decide

theorem pullRow_no_violation (st : State) (row : TrackedRow) (now : Nat) :
    violatesOrder (pullRow st row now).trace = false := by
  unfold pullRow
  split
  · split
    · split
      · rfl
      · exact pullRest_no_violation _ _ _ _ _ (by decide)
    · exact pullRest_no_violation _ _ _ _ _ (by decide)
  · exact pullRest_no_violation _ _ _ _ _ (by decide)

theorem pull_no_violation (st : State) (x : String) (now : Nat) :
    violatesOrder (pull st x now).trace = false := by
  unfold pull
  split
  · rfl
  · exact pullRow_no_violation _ _ _

theorem commitRow_no_violation (st : State) (row : TrackedRow) (now : Nat) :
    violatesOrder (commitRow st row now).trace = false := by
  unfold commitRow
  split
  · split
    · split
      · rfl
      · exact commitReplace_no_violation _ _ _ _ _ _ (by decide)
    · exact commitReplace_no_violation _ _ _ _ _ _ (by decide)
    · exact commitReplace_no_violation _ _ _ _ _ _ (by decide)
  · rfl

theorem commit_no_violation (st : State) (x : String) (now : Nat) :
    violatesOrder (commit st x now).trace = false := by
  unfold commit
  split
  · rfl
  · exact commitRow_no_violation _ _ _

/-- Shared with several claims: commit on a tracked item whose sandbox is
empty fails fast and leaves everything unchanged. -/
theorem commit_of_empty (st : State) (x : String) (now : Nat) (row : TrackedRow)
    (hrow : findByNameOrPath st.registry x = some row)
    (hempty : sandboxHasContent st row.name = false) :
    commit st x now = ⟨st, [], .err ("nothing to commit")⟩ := by
  have he : commit st x now = commitRow st row now := by
    unfold commit
    rw [hrow]
  rw [he]
  unfold commitRow
  rw [hempty]
  rfl

/-! ## Branch equations for the operations -/

theorem pullRest_ghost_eq (st : State) (row : TrackedRow) (snapId : Option String)
    (tr : List Event) (now : Nat) (horig : alookup st.entries row.path = none) :
    pullRest st row snapId tr now
      = ⟨markStatusByName st row.name "ghost", tr ++ [.regWrite], .err ("original missing")⟩ := by
  unfold pullRest
  rw [horig]

theorem pullRow_content_eq (st : State) (row : TrackedRow) (now : Nat) (sb : FsTree)
    (hsb : alookup st.sandboxes row.name = some sb)
    (hcont : dirHasContent sb = true)
    (hfresh : alookup st.snapshots (row.name, "pre_pull_" ++ toString now) = none) :
    pullRow st row now
      = pullRest { st with
          snapshots := aset st.snapshots (row.name, "pre_pull_" ++ toString now) sb,
          sandboxes := aset st.sandboxes row.name (clearSandboxTree sb) }
          row (some ("pre_pull_" ++ toString now)) [.snapshotWrite, .clearSandbox] now := by
  have hc : sandboxHasContent st row.name = true := by
    unfold sandboxHasContent
    rw [hsb]
    exact hcont
  unfold pullRow
  rw [if_pos hc]
  simp only [hsb, hfresh, Option.isSome_none, Bool.false_eq_true, if_false]

theorem pullRow_no_content_eq (st : State) (row : TrackedRow) (now : Nat)
    (hc : sandboxHasContent st row.name = false) :
    pullRow st row now = pullRest st row none [] now := by
  unfold pullRow
  rw [if_neg (by simp [hc])]

theorem pullRow_ghost_eq (st : State) (row : TrackedRow) (now : Nat) (sb : FsTree)
    (hsb : alookup st.sandboxes row.name = some sb)
    (hcont : dirHasContent sb = true)
    (hfresh : alookup st.snapshots (row.name, "pre_pull_" ++ toString now) = none)
    (horig : alookup st.entries row.path = none) :
    pullRow st row now
      = ⟨{ st with
           snapshots := aset st.snapshots (row.name, "pre_pull_" ++ toString now) sb,
           sandboxes := aset st.sandboxes row.name (clearSandboxTree sb),
           registry := updateByName st.registry row.name (fun r => { r with status := "ghost" }) },
         [.snapshotWrite, .clearSandbox, .regWrite], .err ("original missing")⟩ := by
  rw [pullRow_content_eq st row now sb hsb hcont hfresh]
  unfold pullRest
  dsimp only
  rw [horig]
  rfl

theorem commitRow_none_eq (st : State) (row : TrackedRow) (now : Nat)
    (hc : sandboxHasContent st row.name = true)
    (ho : alookup st.entries row.path = none) :
    commitRow st row now
      = commitReplace st row ((alookup st.sandboxes row.name).getD (.dir [])) none [] now := by
  unfold commitRow
  rw [if_pos hc]
  simp only [ho]

theorem commitRow_dir_eq (st : State) (row : TrackedRow) (now : Nat)
    (cs : List (String × FsTree))
    (hc : sandboxHasContent st row.name = true)
    (ho : alookup st.entries row.path = some (.dir cs))
    (hfresh : alookup st.snapshots (row.name, "pre_commit_" ++ toString now) = none) :
    commitRow st row now
      = commitReplace
          { st with snapshots := aset st.snapshots (row.name, "pre_commit_" ++ toString now) (.dir cs) }
          row ((alookup st.sandboxes row.name).getD (.dir []))
          (some ("pre_commit_" ++ toString now)) [.snapshotWrite] now := by
  unfold commitRow
  rw [if_pos hc]
  simp only [ho, hfresh, Option.isSome_none, Bool.false_eq_true, if_false]

theorem commitRow_file_eq (st : State) (row : TrackedRow) (now : Nat) (d : String)
    (hc : sandboxHasContent st row.name = true)
    (ho : alookup st.entries row.path = some (.file d)) :
    commitRow st row now
      = commitReplace
          { st with snapshots := aset st.snapshots (row.name, "pre_commit_" ++ toString now) (fileSnapTree st.snapshots (row.name, "pre_commit_" ++ toString now) row.path d) }
          row ((alookup st.sandboxes row.name).getD (.dir []))
          (some ("pre_commit_" ++ toString now)) [.snapshotWrite] now := by
  unfold commitRow
  rw [if_pos hc]
  simp only [ho]

theorem commitReplace_dir (st : State) (row : TrackedRow) (sb : FsTree)
    (snapId : Option String) (tr : List Event) (now : Nat)
    (hbranch : dirBranchCond st.entries row.path sb = true)
    (htemp : alookup st.entries (tempOf row.path) = none)
    (hbak : alookup st.entries (bakOf row.path) = none) :
    (commitReplace st row sb snapId tr now).outcome = .ok
    ∧ alookup (commitReplace st row sb snapId tr now).state.entries row.path
        = some (stripMeta sb)
    ∧ alookup (commitReplace st row sb snapId tr now).state.entries (tempOf row.path) = none
    ∧ alookup (commitReplace st row sb snapId tr now).state.entries (bakOf row.path) = none
    ∧ (commitReplace st row sb snapId tr now).trace
        = tr ++ (if (alookup st.entries row.path).isSome
                 then [Event.copyToTemp, Event.renameOrigToBak,
                       Event.renameTempToOrig, Event.removeBak]
                 else [Event.copyToTemp, Event.renameTempToOrig]) ++ [Event.regWrite] := by
  unfold commitReplace
  rw [if_pos hbranch]
  refine ⟨rfl, dirSwapEntries_orig _ _ _, dirSwapEntries_temp _ _ _,
    dirSwapEntries_bak _ _ _, ?_⟩
  show (tr ++ dirSwapTrace st.entries row.path (stripMeta sb)) ++ [Event.regWrite] = _
  rw [dirSwapTrace_clean st.entries row.path (stripMeta sb) htemp hbak]

theorem handleRow_restore_eq (st : State) (path : String) (row : TrackedRow)
    (cs : List (String × FsTree))
    (hsb : alookup st.sandboxes row.name = some (.dir cs))
    (hcont : dirHasContent (.dir cs) = true)
    (horig : alookup st.entries path = none) :
    handleRow st path row Choice.restore
      = ⟨{ (markStatusByPath st path "tracked") with
           entries := aset st.entries path (stripMetaRec (.dir cs)) },
         [.restoreCopy, .regWrite], true⟩ := by
  have hc : sandboxHasContent st row.name = true := by
    unfold sandboxHasContent
    rw [hsb]
    exact hcont
  unfold handleRow
  rw [if_pos hc]
  simp only [horig, Option.isSome_none, Bool.false_eq_true, if_false, hsb]

theorem track_success_eq (st : State) (pth nm : String) (now : Nat)
    (h1 : (alookup st.entries pth).isNone = false)
    (h2 : st.registry.any (fun r => r.name == nm) = false)
    (h3 : st.registry.any (fun r => r.path == pth) = false)
    (h4 : alookup st.sandboxes nm = none) :
    track st pth nm now
      = ⟨{ st with
           registry := st.registry ++ [{ path := pth, name := nm, status := "tracked" }],
           sandboxes := aset st.sandboxes nm
             (.dir [(".clutter_sandbox", metaFile nm pth now)]) },
         [.regWrite, .refLink, .sandboxInit], .ok⟩ := by
  unfold track
  rw [if_neg (by simp [h1]), if_neg (by simp [h2]), if_neg (by simp [h3])]
  simp only [h4]

/-! ## Claim theorems -/

/-- C1: for every tracked item whose original is a directory, or does not
exist, or whose sandbox holds a directory, commit with a non-empty sandbox
copies the sandbox entries minus the metadata file to the .clutter_temp
sibling, then (when the original exists) renames the original to the
.clutter_bak sibling, then renames the temp path onto the original, then
removes the bak sibling — afterwards the original holds exactly the
sandbox tree without the metadata file and neither sibling remains.
Stated for a run whose pre-commit snapshot destination is fresh and whose
temp and bak siblings are not already occupied. -/
theorem commit_dir_replace (st : State) (x : String) (now : Nat) (row : TrackedRow)
    (sb : FsTree)
    (hrow : findByNameOrPath st.registry x = some row)
    (hsb : alookup st.sandboxes row.name = some sb)
    (hcont : dirHasContent sb = true)
    (hbranch : dirBranchCond st.entries row.path sb = true)
    (hfresh : alookup st.snapshots (row.name, "pre_commit_" ++ toString now) = none)
    (htemp : alookup st.entries (tempOf row.path) = none)
    (hbak : alookup st.entries (bakOf row.path) = none) :
    (commit st x now).outcome = .ok
    ∧ alookup (commit st x now).state.entries row.path = some (stripMeta sb)
    ∧ alookup (commit st x now).state.entries (tempOf row.path) = none
    ∧ alookup (commit st x now).state.entries (bakOf row.path) = none
    ∧ (commit st x now).trace
        = (if (alookup st.entries row.path).isSome
           then [Event.snapshotWrite, Event.copyToTemp, Event.renameOrigToBak,
                 Event.renameTempToOrig, Event.removeBak, Event.regWrite]
           else [Event.copyToTemp, Event.renameTempToOrig, Event.regWrite]) := by
  have hc : sandboxHasContent st row.name = true := by
    unfold sandboxHasContent
    rw [hsb]
    exact hcont
  have hgd : (alookup st.sandboxes row.name).getD (.dir []) = sb := by
    rw [hsb]
    rfl
  have he : commit st x now = commitRow st row now := by
    unfold commit
    rw [hrow]
  rw [he]
  cases ho : alookup st.entries row.path with
  | none =>
      rw [commitRow_none_eq st row now hc ho, hgd]
      have h := commitReplace_dir st row sb none [] now hbranch htemp hbak
      rw [ho] at h
      simp only [Option.isSome_none, Bool.false_eq_true, if_false] at h ⊢
      exact ⟨h.1, h.2.1, h.2.2.1, h.2.2.2.1, by rw [h.2.2.2.2]; rfl⟩
  | some orig =>
      cases orig with
      | dir cs =>
          rw [commitRow_dir_eq st row now cs hc ho hfresh, hgd]
          have h := commitReplace_dir
            { st with snapshots := aset st.snapshots (row.name, "pre_commit_" ++ toString now) (.dir cs) }
            row sb (some ("pre_commit_" ++ toString now)) [.snapshotWrite] now
            hbranch htemp hbak
          dsimp only at h
          rw [ho] at h
          simp only [Option.isSome_some, eq_self_iff_true, if_true] at h ⊢
          exact ⟨h.1, h.2.1, h.2.2.1, h.2.2.2.1, by rw [h.2.2.2.2]; rfl⟩
      | file d =>
          rw [commitRow_file_eq st row now d hc ho, hgd]
          have h := commitReplace_dir
            { st with snapshots := aset st.snapshots (row.name, "pre_commit_" ++ toString now) (fileSnapTree st.snapshots (row.name, "pre_commit_" ++ toString now) row.path d) }
            row sb (some ("pre_commit_" ++ toString now)) [.snapshotWrite] now
            hbranch htemp hbak
          dsimp only at h
          rw [ho] at h
          simp only [Option.isSome_some, eq_self_iff_true, if_true] at h ⊢
          exact ⟨h.1, h.2.1, h.2.2.1, h.2.2.2.1, by rw [h.2.2.2.2]; rfl⟩

theorem commit_dir_replace_witness :
    (commit stDirItem ("n") 7).outcome = .ok
    ∧ alookup (commit stDirItem ("n") 7).state.entries ("/o")
        = some (stripMeta (FsTree.dir [(".clutter_sandbox", .file ("m")), ("f", .file ("2"))]))
    ∧ alookup (commit stDirItem ("n") 7).state.entries (tempOf ("/o")) = none
    ∧ alookup (commit stDirItem ("n") 7).state.entries (bakOf ("/o")) = none := by
  have h := commit_dir_replace stDirItem ("n") 7
    { path := "/o", name := "n", status := "pulled" }
    (FsTree.dir [(".clutter_sandbox", .file ("m")), ("f", .file ("2"))])
    (by decide) (by decide) (by decide) (by decide) (by decide) (by decide) (by decide)
  exact ⟨h.1, h.2.1, h.2.2.1, h.2.2.2.1⟩

/-- C2: commit on a tracked item whose sandbox is empty (missing, or
holding only the metadata file) fails with the nothing-to-commit error and
mutates nothing: the state is returned unchanged and the write trace is
empty. -/
theorem commit_empty_noop (st : State) (x : String) (now : Nat) (row : TrackedRow)
    (hrow : findByNameOrPath st.registry x = some row)
    (hempty : sandboxHasContent st row.name = false) :
    commit st x now = ⟨st, [], .err ("nothing to commit")⟩ :=
  commit_of_empty st x now row hrow hempty

theorem commit_empty_noop_witness :
    commit stEmptySandbox ("w2") 3 = ⟨stEmptySandbox, [], .err ("nothing to commit")⟩ :=
  commit_empty_noop stEmptySandbox ("w2") 3
    { path := "/w2", name := "w2", status := "tracked" } (by decide) (by decide)

/-- C3: pull on a tracked item whose original no longer exists sets the
row's status to ghost, keeps the pre-pull snapshot taken from a non-empty
sandbox as the recovery point, and stops: the external filesystem is
untouched, no copy into the sandbox happens, and neither last_pulled nor
a pulled status is recorded (only the status column changes).  Stated for
a run whose pre-pull snapshot destination is fresh. -/
theorem pull_missing_original_ghost (st : State) (x : String) (now : Nat) (row : TrackedRow)
    (hrow : findByNameOrPath st.registry x = some row)
    (horig : alookup st.entries row.path = none)
    (hfresh : alookup st.snapshots (row.name, "pre_pull_" ++ toString now) = none) :
    (pull st x now).outcome = .err ("original missing")
    ∧ (pull st x now).state.registry
        = updateByName st.registry row.name (fun r => { r with status := "ghost" })
    ∧ (pull st x now).state.entries = st.entries
    ∧ (∀ sb : FsTree, alookup st.sandboxes row.name = some sb → dirHasContent sb = true →
        alookup (pull st x now).state.snapshots (row.name, "pre_pull_" ++ toString now) = some sb
        ∧ alookup (pull st x now).state.sandboxes row.name = some (clearSandboxTree sb))
    ∧ (pull st x now).trace
        = (if sandboxHasContent st row.name
           then [Event.snapshotWrite, Event.clearSandbox, Event.regWrite]
           else [Event.regWrite]) := by
  have he : pull st x now = pullRow st row now := by
    unfold pull
    rw [hrow]
  rw [he]
  by_cases hc : sandboxHasContent st row.name = true
  · cases hs : alookup st.sandboxes row.name with
    | none =>
        exfalso
        unfold sandboxHasContent at hc
        rw [hs] at hc
        simp at hc
    | some sb =>
        have hcont : dirHasContent sb = true := by
          unfold sandboxHasContent at hc
          rw [hs] at hc
          exact hc
        rw [pullRow_ghost_eq st row now sb hs hcont hfresh horig]
        refine ⟨rfl, rfl, rfl, ?_, ?_⟩
        · intro sb' hsb' _
          injection hsb' with hsb2
          subst hsb2
          exact ⟨alookup_aset_self _ _ _, alookup_aset_self _ _ _⟩
        · rw [hc]
          rfl
  · have hc2 : sandboxHasContent st row.name = false := by
      cases hval : sandboxHasContent st row.name
      · rfl
      · exact absurd hval hc
    rw [pullRow_no_content_eq st row now hc2, pullRest_ghost_eq st row none [] now horig]
    refine ⟨rfl, rfl, rfl, ?_, ?_⟩
    · intro sb hsb hcont
      exfalso
      apply hc
      unfold sandboxHasContent
      rw [hsb]
      exact hcont
    · rw [hc2]
      rfl

theorem pull_missing_original_ghost_witness :
    (pull stNoOriginal ("w3") 9).outcome = .err ("original missing")
    ∧ alookup (pull stNoOriginal ("w3") 9).state.snapshots ("w3", "pre_pull_9")
        = some (FsTree.dir [(".clutter_sandbox", .file ("m")), ("d", .file ("x"))]) := by
  have h := pull_missing_original_ghost stNoOriginal ("w3") 9
    { path := "/w3", name := "w3", status := "pulled" }
    (by decide) (by decide) (by decide)
  exact ⟨h.1, (h.2.2.2.1 _ (by decide) (by decide)).1⟩

/-- C4 (amended): an orphaned temp sibling of a path p is preserved, with
its contents, by track, by pull, and by commit of any tracked item whose
original path is neither p nor the temp path itself; the claim's
never-removed guarantee fails only for a later commit of the item at p
itself, which deletes the orphan and reuses its path (see the
counterexample). -/
theorem orphan_temp_preserved_amended (st : State) (p pth nm x : String) (now : Nat) :
    alookup (track st pth nm now).state.entries (tempOf p) = alookup st.entries (tempOf p)
    ∧ alookup (pull st x now).state.entries (tempOf p) = alookup st.entries (tempOf p)
    ∧ (∀ row : TrackedRow, findByNameOrPath st.registry x = some row →
        row.path ≠ p → row.path ≠ tempOf p →
        alookup (commit st x now).state.entries (tempOf p) = alookup st.entries (tempOf p)) := by
  refine ⟨by rw [track_entries], by rw [pull_entries], ?_⟩
  intro row hrow hp1 hp2
  apply commit_entries_frame
  intro row' hrow'
  rw [hrow] at hrow'
  injection hrow' with hr
  subst hr
  refine ⟨fun e => hp2 e.symm, fun e => hp1 (tempOf_inj e.symm), ?_⟩
  exact fun e => (bakOf_ne_tempOf row.path p) e.symm

theorem orphan_temp_preserved_amended_witness :
    alookup (track stOrphan ("/y") ("m") 7).state.entries (tempOf ("/q"))
        = alookup stOrphan.entries (tempOf ("/q"))
    ∧ alookup (pull stOrphan ("n") 7).state.entries (tempOf ("/q"))
        = alookup stOrphan.entries (tempOf ("/q"))
    ∧ alookup (commit stOrphan ("n") 7).state.entries (tempOf ("/q"))
        = alookup stOrphan.entries (tempOf ("/q")) := by
  have h := orphan_temp_preserved_amended stOrphan ("/q") ("/y") ("m") ("n") 7
  exact ⟨h.1, h.2.1, h.2.2 { path := "/o", name := "n", status := "pulled" }
    (by decide) (by decide) (by decide)⟩

/-- C4 (counterexample): the claim says an orphaned temp directory is
never removed by any subsequent operation, but a later commit of the same
item deletes it: in stOrphan the orphan at the original's temp sibling
holds evidence before the commit and is gone afterwards. -/
theorem orphan_temp_removed_cx :
    alookup stOrphan.entries (tempOf ("/o"))
        = some (FsTree.dir [("evidence", .file ("e"))])
    ∧ alookup (commit stOrphan ("n") 7).state.entries (tempOf ("/o")) = none := by
  decide

/-- C5 (amended): pull and commit perform every tracked-data filesystem
write before the matching registry write (pull's resume-state note, a
bookkeeping file the registry does not report, follows it); the claim's
inclusion of track fails because track inserts and commits its registry
row before creating the refs symlink and the sandbox (see the
counterexample). -/
theorem fs_before_registry_pull_commit (st : State) (x : String) (now : Nat) :
    violatesOrder (pull st x now).trace = false
    ∧ violatesOrder (commit st x now).trace = false :=
  ⟨pull_no_violation st x now, commit_no_violation st x now⟩

/-- C5 (counterexample): track writes the registry row first and creates
the sandbox afterwards, so its trace has a tracked-data filesystem write
after the registry write — the claimed fs-before-registry ordering is
violated at this input. -/
theorem track_registry_first_cx :
    (track stFresh ("/p") ("n") 0).trace = [Event.regWrite, Event.refLink, Event.sandboxInit]
    ∧ violatesOrder (track stFresh ("/p") ("n") 0).trace = true := by
  decide

/-- C6 (amended): snapshots are additive for track, pull and
handle_tracked_deletion unconditionally, and for commit at every snapshot
key other than the one commit itself is writing this second; the claim's
same-second guarantee fails only for the single-file commit snapshot,
which reuses the existing directory and overwrites its file (see the
counterexample). -/
theorem snapshots_preserved_amended (st : State) (k : String × String) (t : FsTree)
    (pth nm x : String) (now : Nat) (choice : Choice)
    (hk : alookup st.snapshots k = some t) :
    alookup (track st pth nm now).state.snapshots k = some t
    ∧ alookup (pull st x now).state.snapshots k = some t
    ∧ alookup (handle_tracked_deletion st pth choice).state.snapshots k = some t
    ∧ (∀ row : TrackedRow, findByNameOrPath st.registry x = some row →
        k ≠ (row.name, "pre_commit_" ++ toString now) →
        alookup (commit st x now).state.snapshots k = some t) := by
  refine ⟨?_, pull_snapshots_preserve st x now k t hk, ?_, ?_⟩
  · rw [track_snapshots]
    exact hk
  · rw [handle_snapshots]
    exact hk
  · intro row hrow hkne
    exact commit_snapshots_preserve st x now k t row hrow hkne hk

theorem snapshots_preserved_amended_witness :
    alookup (track (commit stFileItem ("nf") 5).state ("/y") ("y") 6).state.snapshots
        ("nf", "pre_commit_5") = some (FsTree.dir [("f", .file ("O"))])
    ∧ alookup (pull (commit stFileItem ("nf") 5).state ("nf") 6).state.snapshots
        ("nf", "pre_commit_5") = some (FsTree.dir [("f", .file ("O"))])
    ∧ alookup (handle_tracked_deletion (commit stFileItem ("nf") 5).state ("/y")
        Choice.keepGhost).state.snapshots ("nf", "pre_commit_5")
        = some (FsTree.dir [("f", .file ("O"))])
    ∧ alookup (commit (commit stFileItem ("nf") 5).state ("nf") 6).state.snapshots
        ("nf", "pre_commit_5") = some (FsTree.dir [("f", .file ("O"))]) := by
  have h := snapshots_preserved_amended (commit stFileItem ("nf") 5).state
    ("nf", "pre_commit_5") (FsTree.dir [("f", .file ("O"))]) ("/y") ("y") ("nf") 6
    Choice.keepGhost (by decide)
  exact ⟨h.1, h.2.1, h.2.2.1,
    h.2.2.2 { path := "/f", name := "nf", status := "committed",
              last_committed := some 5, snapshot_path := some ("nf/pre_commit_5") }
      (by decide) (by decide)⟩

/-- C6 (counterexample): the single-file commit snapshot path reuses an
existing same-second snapshot directory and overwrites the file inside it:
two commits of stFileItem in clock second 5 leave the snapshot holding the
second commit's original content instead of the first's. -/
theorem snapshot_overwritten_cx :
    alookup (commit stFileItem ("nf") 5).state.snapshots ("nf", "pre_commit_5")
        = some (FsTree.dir [("f", .file ("O"))])
    ∧ alookup (commit (commit stFileItem ("nf") 5).state ("nf") 5).state.snapshots
        ("nf", "pre_commit_5") = some (FsTree.dir [("f", .file ("S"))])
    ∧ (FsTree.dir [("f", FsTree.file ("O"))]) ≠ (FsTree.dir [("f", FsTree.file ("S"))]) := by
  decide

/-- C7: for a tracked path whose sandbox has nothing beyond the metadata
file, handle_tracked_deletion marks the row ghost, reports the deletion as
unhandled (returns false), and performs no filesystem write — the only
write in its trace is the registry update; for an untracked path it is a
no-op returning unhandled. -/
theorem deletion_no_candidate_ghost (st : State) (path : String) (choice : Choice) :
    (st.registry.find? (fun r => r.path == path) = none →
      handle_tracked_deletion st path choice = ⟨st, [], false⟩)
    ∧ (∀ row : TrackedRow, st.registry.find? (fun r => r.path == path) = some row →
        sandboxHasContent st row.name = false →
        handle_tracked_deletion st path choice
          = ⟨markStatusByPath st path "ghost", [.regWrite], false⟩) := by
  constructor
  · intro h
    unfold handle_tracked_deletion
    rw [h]
  · intro row hrow hempty
    have he : handle_tracked_deletion st path choice = handleRow st path row choice := by
      unfold handle_tracked_deletion
      rw [hrow]
    rw [he]
    unfold handleRow
    rw [if_neg (by simp [hempty])]

theorem deletion_no_candidate_ghost_witness :
    handle_tracked_deletion stUntracked ("/nowhere") Choice.restore
        = ⟨stUntracked, [], false⟩
    ∧ handle_tracked_deletion stNeverPulled ("/w7") Choice.restore
        = ⟨markStatusByPath stNeverPulled ("/w7") ("ghost"), [.regWrite], false⟩ :=
  ⟨(deletion_no_candidate_ghost stUntracked ("/nowhere") Choice.restore).1 (by decide),
   (deletion_no_candidate_ghost stNeverPulled ("/w7") Choice.restore).2
     { path := "/w7", name := "w7", status := "tracked" } (by decide) (by decide)⟩

/-- C8 (amended): restoring a deleted original from a sandbox with content
copies the sandbox tree back to the original path with every entry named
.clutter_sandbox excluded at every directory depth — not only the
top-level metadata file — and sets the row's status to tracked, returning
handled. -/
theorem restore_copies_stripped (st : State) (path : String) (row : TrackedRow)
    (sb : FsTree)
    (hrow : st.registry.find? (fun r => r.path == path) = some row)
    (hsb : alookup st.sandboxes row.name = some sb)
    (hcont : dirHasContent sb = true)
    (horig : alookup st.entries path = none) :
    (handle_tracked_deletion st path Choice.restore).handled = true
    ∧ alookup (handle_tracked_deletion st path Choice.restore).state.entries path
        = some (stripMetaRec sb)
    ∧ (handle_tracked_deletion st path Choice.restore).state.registry
        = updateByPath st.registry path (fun r => { r with status := "tracked" }) := by
  have he : handle_tracked_deletion st path Choice.restore
      = handleRow st path row Choice.restore := by
    unfold handle_tracked_deletion
    rw [hrow]
  rw [he]
  cases sb with
  | file d =>
      exfalso
      unfold dirHasContent at hcont
      simp at hcont
  | dir cs =>
      rw [handleRow_restore_eq st path row cs hsb hcont horig]
      exact ⟨rfl, alookup_aset_self _ _ _, rfl⟩

theorem restore_copies_stripped_witness :
    (handle_tracked_deletion stNested ("/o8") Choice.restore).handled = true
    ∧ alookup (handle_tracked_deletion stNested ("/o8") Choice.restore).state.entries ("/o8")
        = some (stripMetaRec (FsTree.dir [(".clutter_sandbox", .file ("m")),
            ("sub", .dir [(".clutter_sandbox", .file ("u"))])])) := by
  have h := restore_copies_stripped stNested ("/o8")
    { path := "/o8", name := "n8", status := "ghost" }
    (FsTree.dir [(".clutter_sandbox", .file ("m")),
      ("sub", .dir [(".clutter_sandbox", .file ("u"))])])
    (by decide) (by decide) (by decide) (by decide)
  exact ⟨h.1, h.2.1⟩

/-- C8 (counterexample): the claim says restore copies the sandbox
contents excluding the metadata file, so the original should afterwards
equal the sandbox tree minus that one top-level file; but copytree's
ignore pattern drops entries named .clutter_sandbox at every depth, so a
user file of that name inside a subdirectory is not restored. -/
theorem restore_nested_meta_cx :
    (handle_tracked_deletion stNested ("/o8") Choice.restore).handled = true
    ∧ alookup (handle_tracked_deletion stNested ("/o8") Choice.restore).state.entries ("/o8")
        = some (FsTree.dir [("sub", FsTree.dir [])])
    ∧ alookup (handle_tracked_deletion stNested ("/o8") Choice.restore).state.entries ("/o8")
        ≠ some (stripMeta (FsTree.dir [(".clutter_sandbox", .file ("m")),
            ("sub", .dir [(".clutter_sandbox", .file ("u"))])])) := by
  decide

/-- C9 (amended): for an existing path not already tracked and an unused
name with no pre-existing sandbox directory, track appends exactly one
registry row carrying that name and path with status tracked and creates
the sandbox containing only the metadata file; a missing path or a name
collision is reported with the state returned unchanged.  (A pre-existing
sandbox directory keeps its stale entries — only the metadata file is
written — so the claim's only-metadata guarantee needs the no-sandbox
hypothesis; see the counterexample.) -/
theorem track_registers_amended (st : State) (pth nm : String) (now : Nat) :
    ((alookup st.entries pth).isNone = false →
      st.registry.any (fun r => r.name == nm) = false →
      st.registry.any (fun r => r.path == pth) = false →
      alookup st.sandboxes nm = none →
      track st pth nm now
        = ⟨{ st with
             registry := st.registry ++ [{ path := pth, name := nm, status := "tracked" }],
             sandboxes := aset st.sandboxes nm
               (.dir [(".clutter_sandbox", metaFile nm pth now)]) },
           [.regWrite, .refLink, .sandboxInit], .ok⟩
      ∧ ((track st pth nm now).state.registry.countP
          (fun r => r.name == nm && r.path == pth)) = 1)
    ∧ (alookup st.entries pth = none →
        track st pth nm now = ⟨st, [], .err ("path does not exist")⟩)
    ∧ ((alookup st.entries pth).isNone = false →
        st.registry.any (fun r => r.name == nm) = true →
        track st pth nm now = ⟨st, [], .err ("name already in use")⟩) := by
  refine ⟨?_, ?_, ?_⟩
  · intro h1 h2 h3 h4
    have heq := track_success_eq st pth nm now h1 h2 h3 h4
    refine ⟨heq, ?_⟩
    rw [heq]
    show ((st.registry ++ [({ path := pth, name := nm, status := "tracked" } : TrackedRow)]).countP
      (fun r => r.name == nm && r.path == pth)) = 1
    have hzero : st.registry.countP (fun r => r.name == nm && r.path == pth) = 0 := by
      rw [List.countP_eq_zero]
      intro r hr hpred
      have hn : (r.name == nm) = true := ((Bool.and_eq_true _ _).mp hpred).1
      have hany : st.registry.any (fun r => r.name == nm) = true :=
        List.any_eq_true.mpr ⟨r, hr, hn⟩
      rw [h2] at hany
      exact Bool.false_ne_true hany
    rw [List.countP_append, hzero]
    simp
  · intro h
    unfold track
    rw [if_pos (by rw [h]; rfl)]
  · intro h1 h2
    unfold track
    rw [if_neg (by simp [h1]), if_pos (by simp [h2])]

theorem track_registers_amended_witness :
    track stFresh ("/p") ("n") 0
      = ⟨{ stFresh with
           registry := stFresh.registry ++ [{ path := "/p", name := "n", status := "tracked" }],
           sandboxes := aset stFresh.sandboxes ("n")
             (.dir [(".clutter_sandbox", metaFile ("n") ("/p") 0)]) },
         [.regWrite, .refLink, .sandboxInit], .ok⟩
    ∧ track stUntracked ("/p") ("n") 0 = ⟨stUntracked, [], .err ("path does not exist")⟩
    ∧ track stNameTaken ("/p") ("n") 0 = ⟨stNameTaken, [], .err ("name already in use")⟩ :=
  ⟨((track_registers_amended stFresh ("/p") ("n") 0).1
      (by decide) (by decide) (by decide) (by decide)).1,
   (track_registers_amended stUntracked ("/p") ("n") 0).2.1 (by decide),
   (track_registers_amended stNameTaken ("/p") ("n") 0).2.2 (by decide) (by decide)⟩

/-- C9 (counterexample): with a stale sandbox directory already on disk
for the chosen name, track succeeds but the sandbox keeps the stale entry
next to the freshly written metadata file, so it does not contain only the
metadata file as the claim states. -/
theorem track_stale_sandbox_cx :
    (track stStale ("/p") ("n") 0).outcome = .ok
    ∧ alookup (track stStale ("/p") ("n") 0).state.sandboxes ("n")
        = some (FsTree.dir [("junk", .file ("x")),
            (".clutter_sandbox", metaFile ("n") ("/p") 0)])
    ∧ alookup (track stStale ("/p") ("n") 0).state.sandboxes ("n")
        ≠ some (FsTree.dir [(".clutter_sandbox", metaFile ("n") ("/p") 0)]) := by
  decide

/-- C10: pull on a tracked item with a dirty sandbox and a missing
original moves the sandbox contents into the pre-pull snapshot and clears
the sandbox before the existence check, so afterwards the sandbox holds
nothing beyond the metadata file and an immediately following commit on
the same item fails with the empty-sandbox nothing-to-commit error instead
of restoring from the snapshot.  Stated for a run whose pre-pull snapshot
destination is fresh. -/
theorem pull_ghost_clears_sandbox (st : State) (x : String) (now : Nat) (row : TrackedRow)
    (sb : FsTree)
    (hrow : findByNameOrPath st.registry x = some row)
    (hsb : alookup st.sandboxes row.name = some sb)
    (hcont : dirHasContent sb = true)
    (horig : alookup st.entries row.path = none)
    (hfresh : alookup st.snapshots (row.name, "pre_pull_" ++ toString now) = none) :
    alookup (pull st x now).state.sandboxes row.name = some (clearSandboxTree sb)
    ∧ sandboxHasContent (pull st x now).state row.name = false
    ∧ alookup (pull st x now).state.snapshots (row.name, "pre_pull_" ++ toString now) = some sb
    ∧ (∀ now2 : Nat, commit (pull st x now).state x now2
        = ⟨(pull st x now).state, [], .err ("nothing to commit")⟩) := by
  have he : pull st x now = pullRow st row now := by
    unfold pull
    rw [hrow]
  have hstate : (pull st x now).state
      = { st with
          snapshots := aset st.snapshots (row.name, "pre_pull_" ++ toString now) sb,
          sandboxes := aset st.sandboxes row.name (clearSandboxTree sb),
          registry := updateByName st.registry row.name
            (fun r => { r with status := "ghost" }) } := by
    rw [he, pullRow_ghost_eq st row now sb hsb hcont hfresh horig]
  have hsand : alookup (pull st x now).state.sandboxes row.name
      = some (clearSandboxTree sb) := by
    rw [hstate]
    exact alookup_aset_self _ _ _
  have hempty2 : sandboxHasContent (pull st x now).state row.name = false := by
    unfold sandboxHasContent
    rw [hsand]
    show dirHasContent (clearSandboxTree sb) = false
    exact dirHasContent_clear sb
  refine ⟨hsand, hempty2, ?_, ?_⟩
  · rw [hstate]
    exact alookup_aset_self _ _ _
  · intro now2
    have hfind2 : findByNameOrPath (pull st x now).state.registry x
        = some { row with status := "ghost" } := by
      rw [hstate]
      show findByNameOrPath
        (updateByName st.registry row.name (fun r => { r with status := "ghost" })) x
        = some { row with status := "ghost" }
      rw [findByNameOrPath_updateByName st.registry row.name x
            (fun r => { r with status := "ghost" }) (fun r => ⟨rfl, rfl⟩), hrow]
      simp
    exact commit_of_empty _ x now2 { row with status := "ghost" } hfind2 hempty2

theorem pull_ghost_clears_sandbox_witness :
    sandboxHasContent (pull stNoOriginal ("w3") 4).state ("w3") = false
    ∧ commit (pull stNoOriginal ("w3") 4).state ("w3") 5
        = ⟨(pull stNoOriginal ("w3") 4).state, [], .err ("nothing to commit")⟩ := by
  have h := pull_ghost_clears_sandbox stNoOriginal ("w3") 4
    { path := "/w3", name := "w3", status := "pulled" }
    (FsTree.dir [(".clutter_sandbox", .file ("m")), ("d", .file ("x"))])
    (by decide) (by decide) (by decide) (by decide) (by decide)
  exact ⟨h.2.1, h.2.2.2 5⟩

end Clutter
